import Mathlib

/-!
Verification of the mobx-state-tree top-level API against its natural-language
specification.  The definitions below are a shallow embedding of the TypeScript
sources (src/src/top-level-api.ts, which concatenates `top-level-api.ts` and
`core/json-patch.ts`, plus the test files under src/unnamed).  Pure functions
become Lean functions; the mutable app-state slot and the node store become
explicit state passing; fallible code returns `Except String`.
-/

namespace MST

/-! ### Utils: invariant

Modelled from the spec: `invariant` lives in `src/utils.ts`, which is not part
of the provided sources.  Its behaviour is pinned by its call sites and by the
test files: it raises an error whose message is the given message prefixed with
"[mobx-state-tree] " when the condition is falsy (see the exact messages
asserted in src/unnamed/part_000 lines 33 and 130), and does nothing otherwise. -/
def invariant (cond : Bool) (msg : String) : Except String Unit :=
  if cond then Except.ok () else Except.error ("[mobx-state-tree] " ++ msg)

/-! ### PathCodec (core/json-patch.ts)

JavaScript `str.replace(/pat/g, repl)` with a literal pattern replaces every
non-overlapping occurrence of the pattern, scanning left to right.  We embed it
as a fuelled character-list scan; fuel equal to the length of the string is
enough whenever the pattern is non-empty (every step consumes at least one
character), and every pattern used by the source is non-empty. -/
def replaceAux (pat repl : List Char) : Nat → List Char → List Char
  | 0, s => s
  | _ + 1, [] => []
  | fuel + 1, c :: rest =>
      if pat.isPrefixOf (c :: rest) then
        repl ++ replaceAux pat repl fuel ((c :: rest).drop pat.length)
      else
        c :: replaceAux pat repl fuel rest

def jsReplaceAll (s pat repl : String) : String :=
  String.mk (replaceAux pat.data repl.data s.data.length s.data)

/-- Embeds `escapeJsonPath` (top-level-api.ts lines 413-415):
`str.replace(/~/g, "~1").replace(/\//g, "~0")`. -/
def escapeJsonPath (str : String) : String :=
  jsReplaceAll (jsReplaceAll str "~" "~1") "/" "~0"

/-- Embeds `unescapeJsonPath` (top-level-api.ts lines 420-422):
`str.replace(/~0/g, "\\").replace(/~1/g, "~")`.  Note the replacement for
`~0` is a single backslash character in the source. -/
def unescapeJsonPath (str : String) : String :=
  jsReplaceAll (jsReplaceAll str "~0" "\\") "~1" "~"

/-- JS `Array.prototype.join("/")`. -/
def joinSlash : List String → String
  | [] => ""
  | [s] => s
  | s :: rest => s ++ "/" ++ joinSlash rest

/-- Embeds `joinJsonPath` (top-level-api.ts lines 424-429). -/
def joinJsonPath (path : List String) : String :=
  if path.length = 0 then "" else "/" ++ joinSlash (path.map escapeJsonPath)

/-- JS `str.split("/")` for a single-character separator. -/
def splitOnSlashChars : List Char → List (List Char)
  | [] => [[]]
  | c :: rest =>
      if c = '/' then [] :: splitOnSlashChars rest
      else
        match splitOnSlashChars rest with
        | [] => [[c]]
        | hd :: tl => (c :: hd) :: tl

/-- Embeds `splitJsonPath` (top-level-api.ts lines 431-437): empty string maps
to the empty segment list, otherwise the path must start with a slash; the
remainder is split on slashes and each piece unescaped. -/
def splitJsonPath (path : String) : Except String (List String) := do
  if path = "" then
    Except.ok []
  else do
    invariant (path.data.headD ' ' = '/')
      ("Expected path to start with \x27/\x27, got: \x27" ++ path ++ "\x27")
    Except.ok (((splitOnSlashChars (path.data.drop 1)).map
      (fun cs => String.mk cs)).map unescapeJsonPath)

/-! ### App state slot (top-level-api.ts lines 379-393)

The source stores the slot in `const appState = observable.shallowBox(undefined)`.
`appState` itself is the box object; in JavaScript an object reference is always
truthy.  The source guards read `invariant(!appState, ...)` and
`invariant(!!appState, ...)`: both test the truthiness of the box object, not of
its content. -/

/-- A JavaScript reference: either `undefined` or a reference to an object. -/
inductive JSRef (α : Type) where
  | undefined
  | objRef (a : α)

/-- JS truthiness of a reference: `undefined` is falsy, an object is truthy. -/
def truthy {α : Type} : JSRef α → Bool
  | JSRef.undefined => false
  | JSRef.objRef _ => true

/-- The observable box holding the app-state content (`none` models the initial
`undefined` content). -/
structure ShallowBox (α : Type) where
  value : Option α

/-- Embeds `resetAppState` (lines 381-383): sets the box content to undefined. -/
def resetAppState {α : Type} (_ : ShallowBox α) : ShallowBox α :=
  ShallowBox.mk none

/-- Embeds `initializeAppState` (lines 385-388).  The guard is
`invariant(!appState, ...)` where `appState` is the box object itself, hence
`truthy (JSRef.objRef box)`, not a test of `box.value`. -/
def initializeAppState {α : Type} (box : ShallowBox α) (newValue : α) :
    Except String (ShallowBox α) := do
  invariant (! truthy (JSRef.objRef box))
    "Global app state was already initialized, use \x27resetAppState\x27 to reset it"
  Except.ok (ShallowBox.mk (some newValue))

/-- Embeds `getAppState` (lines 390-393).  The guard is `invariant(!!appState, ...)`
on the box object itself; the returned value is `appState.get()`, i.e. the box
content, which may be `undefined` (`none`). -/
def getAppState {α : Type} (box : ShallowBox α) : Except String (Option α) := do
  invariant (truthy (JSRef.objRef box))
    "Global app state has not been initialized, use \x27initializeAppState\x27 for globally shared state"
  Except.ok box.value

/-! ### Node parent links and paths (top-level-api.ts lines 210-299, 368-371)

Modelled from the spec: the `Node` class (src/core/node.ts) is not part of the
provided sources.  Section 3 of the spec describes a node as holding a parent
link (or none if root), a path segment relative to its parent and the wrapped
value, with `path = join of ancestor path segments from root` and the root path
being the empty string; section 4.2 describes `detach` as setting the parent
reference to none.  The top-level functions embedded below
(`getParent`/`hasParent`/`getPath`/`detach`) are taken directly from
top-level-api.ts. -/

/-- A node: parent link (none for a root), the escaped-path segment under the
parent, and the wrapped model value. -/
inductive NodeData (Model : Type) where
  | mk (parent : Option (NodeData Model)) (subpath : String) (target : Model)

def NodeData.parentOf {M : Type} : NodeData M → Option (NodeData M)
  | NodeData.mk p _ _ => p

def NodeData.targetOf {M : Type} : NodeData M → M
  | NodeData.mk _ _ t => t

/-- Path of a node: empty for a root, otherwise the parent path extended with
the escaped segment (spec section 3: path = join of ancestor path segments). -/
def NodeData.pathOf {M : Type} : NodeData M → String
  | NodeData.mk none _ _ => ""
  | NodeData.mk (some p) sub _ => NodeData.pathOf p ++ "/" ++ escapeJsonPath sub

/-- The association from live model values to their nodes (`getNode`). -/
def NodeStore (Model : Type) := Model → NodeData Model

/-- Embeds `getParent` (top-level-api.ts lines 235-241):
`node.parent ? node.parent.target : null`.  The `strict` parameter is accepted
but never read (its intended use is commented out in the source). -/
def getParent {M : Type} (st : NodeStore M) (target : M) (strict : Bool) : Option M :=
  match (st target).parentOf with
  | some p => some p.targetOf
  | none => none

/-- Embeds `hasParent` (top-level-api.ts lines 210-212):
`getParent(target, strict) !== null`. -/
def hasParent {M : Type} (st : NodeStore M) (target : M) (strict : Bool) : Bool :=
  (getParent st target strict).isSome

/-- Embeds `getPath` (top-level-api.ts lines 275-277). -/
def getPath {M : Type} (st : NodeStore M) (target : M) : String :=
  (st target).pathOf

/-- Modelled from the spec: `node.detach()` sets the node's parent reference to
none (spec section 4.2, "removing a Node from its parent sets its parent
reference to none"). -/
def NodeData.detachNode {M : Type} : NodeData M → NodeData M
  | NodeData.mk _ sub t => NodeData.mk none sub t

/-- Embeds `detach` (top-level-api.ts lines 368-371): detaches the node of the
given value and returns that very value. -/
def detach {M : Type} [DecidableEq M] (st : NodeStore M) (thing : M) :
    NodeStore M × M :=
  (fun m => if m = thing then (st m).detachNode else st m, thing)

/-! ### Patch recording and replay (top-level-api.ts lines 88-124)

The reactive engine is an external collaborator (spec section 1), so its
`runInAction` transaction brackets and the per-patch `node.applyPatch` calls are
modelled as steps of an explicit trace, following spec section 5: applying a
patch is one discrete event, and `applyPatches` wraps its loop in a single
transaction. -/

inductive PatchOp where
  | add
  | replace
  | remove
deriving DecidableEq

/-- Embeds `IJsonPatch` (core/json-patch.ts lines 400-404). -/
structure IJsonPatch where
  op : PatchOp
  path : String
  value : Option String
deriving DecidableEq

/-- One observable step of execution. -/
inductive TraceStep where
  | txnBegin
  | txnEnd
  | patchApplied (p : IJsonPatch)
deriving DecidableEq

/-- One `node.applyPatch(p)` call: a single discrete patch-application event. -/
def nodeApplyPatchTrace (p : IJsonPatch) : List TraceStep :=
  [TraceStep.patchApplied p]

/-- `runInAction(fn)`: the body runs inside one transaction. -/
def runInActionTrace (body : List TraceStep) : List TraceStep :=
  TraceStep.txnBegin :: body ++ [TraceStep.txnEnd]

/-- Embeds `applyPatches` (top-level-api.ts lines 99-104): one `runInAction`
wrapping `patches.forEach(p => node.applyPatch(p))`. -/
def applyPatchesTrace (ps : List IJsonPatch) : List TraceStep :=
  runInActionTrace (List.flatten (ps.map nodeApplyPatchTrace))

/-- Embeds the recorder state of `recordPatches` (top-level-api.ts lines
112-124): the `onPatch` listener pushes every emitted patch onto
`recorder.patches`, so after the emission sequence `emitted` the accumulated
array is the left fold of push over it. -/
def recorderPatches (emitted : List IJsonPatch) : List IJsonPatch :=
  emitted.foldl (fun acc p => acc ++ [p]) []

/-- Embeds `recorder.replay(target)` (top-level-api.ts lines 116-118):
`applyPatches(target, recorder.patches)`. -/
def replayTrace (emitted : List IJsonPatch) : List TraceStep :=
  applyPatchesTrace (recorderPatches emitted)

/-! ### TypeSystem (spec sections 3 and 4.1)

Modelled from the spec: the factory/type system (`src/core/factories.ts`,
`src/types/*`) is not part of the provided sources; only its tests are
(src/unnamed/part_000).  Spec section 3 gives the descriptor variants
(Primitive, ObjectShape, ArrayOf, Union, WithDefault; dispatcher-carrying
unions and maps are not needed by any claim), section 4.1 the validation and
union-resolution rules, and the tests pin the exact error strings.  JSON values
and descriptor field lists are given explicit spine types so that all recursion
is structural. -/

mutual
inductive JsonValue where
  | str (s : String)
  | num (n : Int)
  | bool (b : Bool)
  | obj (fields : JsonFields)
  | arr (items : JsonItems)
inductive JsonFields where
  | jnil
  | jcons (key : String) (val : JsonValue) (rest : JsonFields)
inductive JsonItems where
  | inil
  | icons (val : JsonValue) (rest : JsonItems)
end

/-! A live instance: a primitive cell, a node-backed object (with its factory
name), or a node-backed array. -/
mutual
inductive LiveValue where
  | lprim (v : JsonValue)
  | lobj (nm : Option String) (fields : LiveFields)
  | larr (items : LiveItems)
inductive LiveFields where
  | lfnil
  | lfcons (key : String) (val : LiveValue) (rest : LiveFields)
inductive LiveItems where
  | linil
  | licons (val : LiveValue) (rest : LiveItems)
end

/-! Embeds `getSnapshot` (top-level-api.ts lines 198-200) together with the
spec section 3 description of a snapshot: the plain JSON projection of the
current live state. -/
mutual
def snapshotOf : LiveValue → JsonValue
  | LiveValue.lprim v => v
  | LiveValue.lobj _ lfs => JsonValue.obj (snapshotFields lfs)
  | LiveValue.larr lis => JsonValue.arr (snapshotItems lis)
def snapshotFields : LiveFields → JsonFields
  | LiveFields.lfnil => JsonFields.jnil
  | LiveFields.lfcons k v rest => JsonFields.jcons k (snapshotOf v) (snapshotFields rest)
def snapshotItems : LiveItems → JsonItems
  | LiveItems.linil => JsonItems.inil
  | LiveItems.licons v rest => JsonItems.icons (snapshotOf v) (snapshotItems rest)
end

def mapItems (f : JsonValue → JsonValue) : JsonItems → JsonItems
  | JsonItems.inil => JsonItems.inil
  | JsonItems.icons v rest => JsonItems.icons (f v) (mapItems f rest)

def allItems (p : JsonValue → Bool) : JsonItems → Bool
  | JsonItems.inil => true
  | JsonItems.icons v rest => p v && allItems p rest

/-! Type descriptors (spec section 3): a primitive inferred from its declared
default, an object shape with ordered declared fields, an array type, a
default-wrapped type, and a dispatcher-less union of named object variants. -/
mutual
inductive TypeDesc where
  | prim (default : JsonValue)
  | shape (nm : Option String) (fields : Fields)
  | arrayOf (elem : TypeDesc)
  | withDefault (base : TypeDesc) (dflt : JsonValue)
  | unionOf (variants : Variants)
inductive Fields where
  | fnil
  | fcons (fname : String) (ftype : TypeDesc) (rest : Fields)
inductive Variants where
  | vnil
  | vcons (vname : String) (vfields : Fields) (rest : Variants)
end

def hasField : Fields → String → Bool
  | Fields.fnil, _ => false
  | Fields.fcons fname _ rest, key => fname == key || hasField rest key

def lookupJson : JsonFields → String → Option JsonValue
  | JsonFields.jnil, _ => none
  | JsonFields.jcons k v rest, key => if k == key then some v else lookupJson rest key

/-- Every key of the snapshot object is a declared field. -/
def keysDeclared (flds : Fields) : JsonFields → Bool
  | JsonFields.jnil => true
  | JsonFields.jcons k _ rest => hasField flds k && keysDeclared flds rest

/-- A primitive descriptor accepts exactly the values of the same JS typeof as
its declared default (spec section 4.1: primitive defaults infer primitive
descriptors). -/
def sameKind : JsonValue → JsonValue → Bool
  | JsonValue.str _, JsonValue.str _ => true
  | JsonValue.num _, JsonValue.num _ => true
  | JsonValue.bool _, JsonValue.bool _ => true
  | _, _ => false

/-! Snapshot validation (spec section 3 invariant (1)): missing object keys are
allowed (they will be default-filled), undeclared keys and kind mismatches are
rejected; a union snapshot is valid when some variant accepts it. -/
mutual
def validate : TypeDesc → JsonValue → Bool
  | TypeDesc.prim d, v => sameKind d v
  | TypeDesc.shape _ flds, v =>
      match v with
      | JsonValue.obj sf => keysDeclared flds sf && validateFields flds sf
      | _ => false
  | TypeDesc.arrayOf t, v =>
      match v with
      | JsonValue.arr items => allItems (fun x => validate t x) items
      | _ => false
  | TypeDesc.withDefault base _, v => validate base v
  | TypeDesc.unionOf vars, v => anyVariant vars v
def validateFields : Fields → JsonFields → Bool
  | Fields.fnil, _ => true
  | Fields.fcons fname ftype rest, sf =>
      (match lookupJson sf fname with
       | some v => validate ftype v
       | none => true) && validateFields rest sf
def anyVariant : Variants → JsonValue → Bool
  | Variants.vnil, _ => false
  | Variants.vcons _ vflds rest, v =>
      (match v with
       | JsonValue.obj sf => keysDeclared vflds sf && validateFields vflds sf
       | _ => false) || anyVariant rest v
end

/-- A single union variant accepts the snapshot. -/
def variantValid (vflds : Fields) : JsonValue → Bool
  | JsonValue.obj sf => keysDeclared vflds sf && validateFields vflds sf
  | _ => false

/-- Number of union variants accepting the snapshot. -/
def countMatching : Variants → JsonValue → Nat
  | Variants.vnil, _ => 0
  | Variants.vcons _ vflds rest, v =>
      (if variantValid vflds v then 1 else 0) + countMatching rest v

def variantNameList : Variants → List String
  | Variants.vnil => []
  | Variants.vcons vname _ rest => vname :: variantNameList rest

/-! Name ordering used when the ambiguity message enumerates the variants.  The
spec claims declaration order, but the repository's own test
(src/unnamed/part_000 lines 20 and 33) declares `types.union(Square, Box)` and
asserts the message "... for union Box | Square ...": the enumeration is not in
declaration order.  The observed order is consistent with sorting the names;
the enumeration below is modelled as the name-sorted list. -/
def charListLt : List Char → List Char → Bool
  | [], [] => false
  | [], _ :: _ => true
  | _ :: _, [] => false
  | a :: as, b :: bs =>
      if a.toNat < b.toNat then true
      else if a.toNat = b.toNat then charListLt as bs
      else false

def strLt (a b : String) : Bool := charListLt a.data b.data

def insertSorted (x : String) : List String → List String
  | [] => [x]
  | y :: rest => if strLt x y then x :: y :: rest else y :: insertSorted x rest

def sortStrings : List String → List String
  | [] => []
  | x :: rest => insertSorted x (sortStrings rest)

/-- JS `Array.prototype.join(" | ")`. -/
def joinBar : List String → String
  | [] => ""
  | [s] => s
  | s :: rest => s ++ " | " ++ joinBar rest

/-! Compact JSON rendering, as produced by `JSON.stringify` for the snapshot
values appearing in the sources (string keys and members quoted, no spaces). -/
mutual
def render : JsonValue → String
  | JsonValue.str s => "\"" ++ s ++ "\""
  | JsonValue.num n => toString n
  | JsonValue.bool b => if b then "true" else "false"
  | JsonValue.obj fs => "\x7b" ++ renderFields fs ++ "\x7d"
  | JsonValue.arr its => "[" ++ renderItems its ++ "]"
def renderFields : JsonFields → String
  | JsonFields.jnil => ""
  | JsonFields.jcons k v JsonFields.jnil => "\"" ++ k ++ "\":" ++ render v
  | JsonFields.jcons k v rest => "\"" ++ k ++ "\":" ++ render v ++ "," ++ renderFields rest
def renderItems : JsonItems → String
  | JsonItems.inil => ""
  | JsonItems.icons v JsonItems.inil => render v
  | JsonItems.icons v rest => render v ++ "," ++ renderItems rest
end

/-- Modelled from the spec: the ambiguity error raised by a dispatcher-less
union, with the exact wording pinned by the repository test
(src/unnamed/part_000 line 33), including the "Ambiguos" spelling. -/
def ambiguousMessage (vars : Variants) (snapshot : JsonValue) : String :=
  "[mobx-state-tree] Ambiguos snapshot " ++ render snapshot ++ " for union " ++
    joinBar (sortStrings (variantNameList vars)) ++
    ". Please provide a dispatch in the union declaration."

/-- Display name of a descriptor as it appears in validation error messages
(pinned by src/unnamed/part_000 line 130: a nameless object factory renders as
"unnamed-object-factory" and an array type appends "[]"). -/
def typeName : TypeDesc → String
  | TypeDesc.prim _ => "primitive"
  | TypeDesc.shape none _ => "unnamed-object-factory"
  | TypeDesc.shape (some nm) _ => nm
  | TypeDesc.arrayOf t => typeName t ++ "[]"
  | TypeDesc.withDefault base _ => typeName base
  | TypeDesc.unionOf vars => joinBar (sortStrings (variantNameList vars))

/-! Expected-shape signature rendering (pinned by src/unnamed/part_000 line
130: object shapes render as braces around semicolon-separated
`field: primitive` entries, array types append "[]"). -/
mutual
def sigOf : TypeDesc → String
  | TypeDesc.prim _ => "primitive"
  | TypeDesc.shape _ flds => "\x7b " ++ sigFields flds ++ " \x7d"
  | TypeDesc.arrayOf t => sigOf t ++ "[]"
  | TypeDesc.withDefault base _ => sigOf base
  | TypeDesc.unionOf vars => joinBar (sortStrings (variantNameList vars))
def sigFields : Fields → String
  | Fields.fnil => ""
  | Fields.fcons fname ftype Fields.fnil => fname ++ ": " ++ sigOf ftype
  | Fields.fcons fname ftype rest => fname ++ ": " ++ sigOf ftype ++ "; " ++ sigFields rest
end

def mapItemsExcept (f : JsonValue → Except String LiveValue) :
    JsonItems → Except String LiveItems
  | JsonItems.inil => Except.ok LiveItems.linil
  | JsonItems.icons v rest =>
      match f v with
      | Except.error e => Except.error e
      | Except.ok lv =>
          match mapItemsExcept f rest with
          | Except.error e => Except.error e
          | Except.ok lrest => Except.ok (LiveItems.licons lv lrest)

/-! Instantiation (spec section 4.2 "Construction"): `Factory(snapshot?)`
validates the snapshot, defaults missing fields, and recursively instantiates
nested factories; a wrapped default is instantiated when no snapshot is given
(spec section 4.1 and the tests at src/unnamed/part_000 lines 84-113); a
dispatcher-less union instantiates the unique accepting variant and otherwise
raises the ambiguity error (src/unnamed/part_000 lines 27-34). -/
mutual
def instantiate : TypeDesc → Option JsonValue → Except String LiveValue
  | TypeDesc.prim d, none => Except.ok (LiveValue.lprim d)
  | TypeDesc.prim d, some v =>
      if sameKind d v then Except.ok (LiveValue.lprim v)
      else Except.error ("[mobx-state-tree] Snapshot " ++ render v ++
        " is not assignable to a primitive type")
  | TypeDesc.shape nm flds, none =>
      (instantiateFields flds JsonFields.jnil).map (LiveValue.lobj nm)
  | TypeDesc.shape nm flds, some v =>
      match v with
      | JsonValue.obj sf =>
          if keysDeclared flds sf then
            (instantiateFields flds sf).map (LiveValue.lobj nm)
          else Except.error ("[mobx-state-tree] Snapshot " ++ render v ++
            " has fields that are not declared on the shape")
      | _ => Except.error ("[mobx-state-tree] Snapshot " ++ render v ++
          " is not an object")
  | TypeDesc.arrayOf _, none => Except.ok (LiveValue.larr LiveItems.linil)
  | TypeDesc.arrayOf t, some v =>
      match v with
      | JsonValue.arr items =>
          (mapItemsExcept (fun x => instantiate t (some x)) items).map LiveValue.larr
      | _ => Except.error ("[mobx-state-tree] Snapshot " ++ render v ++
          " is not an array")
  | TypeDesc.withDefault base dflt, none => instantiate base (some dflt)
  | TypeDesc.withDefault base _, some v => instantiate base (some v)
  | TypeDesc.unionOf vars, none =>
      Except.error (ambiguousMessage vars (JsonValue.obj JsonFields.jnil))
  | TypeDesc.unionOf vars, some s =>
      if countMatching vars s = 1 then instantiateFirstMatch vars s
      else Except.error (ambiguousMessage vars s)
def instantiateFields : Fields → JsonFields → Except String LiveFields
  | Fields.fnil, _ => Except.ok LiveFields.lfnil
  | Fields.fcons fname ftype rest, sf =>
      match (match lookupJson sf fname with
             | some v => instantiate ftype (some v)
             | none => instantiate ftype none) with
      | Except.error e => Except.error e
      | Except.ok lv =>
          match instantiateFields rest sf with
          | Except.error e => Except.error e
          | Except.ok lrest => Except.ok (LiveFields.lfcons fname lv lrest)
def instantiateFirstMatch : Variants → JsonValue → Except String LiveValue
  | Variants.vnil, s => Except.error (ambiguousMessage Variants.vnil s)
  | Variants.vcons vname vflds rest, s =>
      if variantValid vflds s then
        match s with
        | JsonValue.obj sf =>
            (instantiateFields vflds sf).map (LiveValue.lobj (some vname))
        | _ => Except.error ("[mobx-state-tree] Snapshot " ++ render s ++
            " is not an object")
      else instantiateFirstMatch rest s
end

/-- Modelled from the spec: `types.withDefault(descriptor, defaultSnapshot)`
(spec section 4.1) validates the default against the descriptor at definition
time and fails immediately when it is invalid; the exact message is pinned by
the repository test (src/unnamed/part_000 lines 116-131). -/
def typesWithDefault (base : TypeDesc) (dflt : JsonValue) : Except String TypeDesc :=
  if validate base dflt then Except.ok (TypeDesc.withDefault base dflt)
  else Except.error ("[mobx-state-tree] Default value " ++ render dflt ++
    " is not assignable to type " ++ typeName base ++ ". Expected \"" ++
    sigOf base ++ "\"")

/-! Default filling, written from the words of the claim and of spec section 8:
the snapshot after default filling keeps every provided value (recursively
filled in turn) and substitutes the declared default, itself fully filled, for
every absent key; an absent array is empty.  This is the specification-side
function that `instantiate` followed by `snapshotOf` is compared against. -/
mutual
def defaultFill : TypeDesc → JsonValue → JsonValue
  | TypeDesc.prim _, v => v
  | TypeDesc.shape _ flds, v =>
      match v with
      | JsonValue.obj sf => JsonValue.obj (fillFields flds sf)
      | _ => v
  | TypeDesc.arrayOf t, v =>
      match v with
      | JsonValue.arr items => JsonValue.arr (mapItems (fun x => defaultFill t x) items)
      | _ => v
  | TypeDesc.withDefault base _, v => defaultFill base v
  | TypeDesc.unionOf _, v => v
def fillFields : Fields → JsonFields → JsonFields
  | Fields.fnil, _ => JsonFields.jnil
  | Fields.fcons fname ftype rest, sf =>
      JsonFields.jcons fname
        (match lookupJson sf fname with
         | some v => defaultFill ftype v
         | none => fillDefault ftype)
        (fillFields rest sf)
def fillDefault : TypeDesc → JsonValue
  | TypeDesc.prim d => d
  | TypeDesc.shape _ flds => JsonValue.obj (fillFields flds JsonFields.jnil)
  | TypeDesc.arrayOf _ => JsonValue.arr JsonItems.inil
  | TypeDesc.withDefault base dflt => defaultFill base dflt
  | TypeDesc.unionOf _ => JsonValue.obj JsonFields.jnil
end

/-! A descriptor with no union inside (C4 concerns ObjectShape factories; a
union instantiation can fail even on a valid snapshot, by design). -/
mutual
def unionFree : TypeDesc → Bool
  | TypeDesc.prim _ => true
  | TypeDesc.shape _ flds => unionFreeFields flds
  | TypeDesc.arrayOf t => unionFree t
  | TypeDesc.withDefault base _ => unionFree base
  | TypeDesc.unionOf _ => false
def unionFreeFields : Fields → Bool
  | Fields.fnil => true
  | Fields.fcons _ ftype rest => unionFree ftype && unionFreeFields rest
end

/-! Well-formedness of a descriptor: every default embedded by `withDefault`
validates against its base type.  Descriptors produced by `types.withDefault`
always satisfy this, because that constructor validates the default at
definition time. -/
mutual
def wfDesc : TypeDesc → Bool
  | TypeDesc.prim _ => true
  | TypeDesc.shape _ flds => wfFields flds
  | TypeDesc.arrayOf t => wfDesc t
  | TypeDesc.withDefault base dflt => validate base dflt && wfDesc base
  | TypeDesc.unionOf vars => wfVariants vars
def wfFields : Fields → Bool
  | Fields.fnil => true
  | Fields.fcons _ ftype rest => wfDesc ftype && wfFields rest
def wfVariants : Variants → Bool
  | Variants.vnil => true
  | Variants.vcons _ vflds rest => wfFields vflds && wfVariants rest
end

/-- Substring test over character lists (scan of every suffix). -/
def containsSub (pat : List Char) : List Char → Bool
  | [] => pat.isEmpty
  | c :: rest => pat.isPrefixOf (c :: rest) || containsSub pat rest

def strContains (pat s : String) : Bool := containsSub pat.data s.data

/-! ### Concrete factories and snapshots embedded from the tests -/

/-- Row factory from the withDefault tests (src/unnamed/part_000 lines 84-97,
100-113 and 116-121): fields `name` (string, default "") and `quantity`
(number, default 0).  In the third test the extra `wrongProp` entry is a
function value, which declares an action rather than a field, so the shape and
its rendered signature are the same in all three tests. -/
def rowShape : TypeDesc :=
  TypeDesc.shape none
    (Fields.fcons "name" (TypeDesc.prim (JsonValue.str ""))
      (Fields.fcons "quantity" (TypeDesc.prim (JsonValue.num 0)) Fields.fnil))

/-- Box factory fields (src/unnamed/part_000 lines 5-8). -/
def boxFields : Fields :=
  Fields.fcons "width" (TypeDesc.prim (JsonValue.num 0))
    (Fields.fcons "height" (TypeDesc.prim (JsonValue.num 0)) Fields.fnil)

/-- Square factory fields (src/unnamed/part_000 lines 10-12). -/
def squareFields : Fields :=
  Fields.fcons "width" (TypeDesc.prim (JsonValue.num 0)) Fields.fnil

/-- `const Plane = types.union(Square, Box)` (src/unnamed/part_000 line 20):
declaration order is Square first, then Box. -/
def planeVariants : Variants :=
  Variants.vcons "Square" squareFields
    (Variants.vcons "Box" boxFields Variants.vnil)

def planeUnion : TypeDesc := TypeDesc.unionOf planeVariants

/-- The snapshot passed to `Plane` in the ambiguity test
(src/unnamed/part_000 line 31). -/
def squareSnap : JsonValue :=
  JsonValue.obj (JsonFields.jcons "width" (JsonValue.num 2) JsonFields.jnil)

/-- The exact error message asserted by the repository test
(src/unnamed/part_000 line 33). -/
def planeAmbiguousMsg : String :=
  "[mobx-state-tree] Ambiguos snapshot \x7b\"width\":2\x7d for union Box | Square. Please provide a dispatch in the union declaration."

/-- The descriptor handed to `types.withDefault` in the invalid-default test
(src/unnamed/part_000 line 126): `types.array(Row)`. -/
def c6Base : TypeDesc := TypeDesc.arrayOf rowShape

/-- The invalid default `[\x7bwrongProp: true\x7d]` of that test. -/
def c6Bad : JsonValue :=
  JsonValue.arr (JsonItems.icons
    (JsonValue.obj (JsonFields.jcons "wrongProp" (JsonValue.bool true) JsonFields.jnil))
    JsonItems.inil)

/-- The exact error message asserted by the repository test
(src/unnamed/part_000 line 130). -/
def c6Msg : String :=
  "[mobx-state-tree] Default value [\x7b\"wrongProp\":true\x7d] is not assignable to type unnamed-object-factory[]. Expected \"\x7b name: primitive; quantity: primitive \x7d[]\""

/-- The message form stated by the claim, rendered at the same input: no
"[mobx-state-tree] " prefix. -/
def c6ClaimForm : String :=
  "Default value [\x7b\"wrongProp\":true\x7d] is not assignable to type unnamed-object-factory[]. Expected \"\x7b name: primitive; quantity: primitive \x7d[]\""

/-- The factory of the snapshot-roundtrip tests (src/unnamed/part_000 lines
90-93 and 106-109): one field `rows` wrapping `types.array(Row)` with default
`[\x7bname: "test"\x7d]`. -/
def c4Desc : TypeDesc :=
  TypeDesc.shape none
    (Fields.fcons "rows"
      (TypeDesc.withDefault (TypeDesc.arrayOf rowShape)
        (JsonValue.arr (JsonItems.icons
          (JsonValue.obj (JsonFields.jcons "name" (JsonValue.str "test") JsonFields.jnil))
          JsonItems.inil)))
      Fields.fnil)

/-- The snapshot of the second roundtrip test (src/unnamed/part_000 line 111):
`\x7brows: [\x7bname: "snapshot", quantity: 0\x7d]\x7d`. -/
def c4Snap : JsonValue :=
  JsonValue.obj (JsonFields.jcons "rows"
    (JsonValue.arr (JsonItems.icons
      (JsonValue.obj (JsonFields.jcons "name" (JsonValue.str "snapshot")
        (JsonFields.jcons "quantity" (JsonValue.num 0) JsonFields.jnil)))
      JsonItems.inil))
    JsonFields.jnil)

end MST

namespace MST

/-! ### Theorems for C1, C2, C3 -/

/-- C1: the claim states `initializeAppState` succeeds and stores the value when
the slot is unset, and raises a StateError if and only if the slot is already
set.  In the code the guard tests the truthiness of the box object (always
true), so the call raises the already-initialized StateError on every call,
including the very first one on an unset slot. -/
theorem initializeAppState_always_raises (α : Type) (box : ShallowBox α) (v : α) :
    initializeAppState box v =
      Except.error
        "[mobx-state-tree] Global app state was already initialized, use \x27resetAppState\x27 to reset it" :=
  rfl

/-- C2: the claim states `getAppState` raises a StateError when the slot is
unset and otherwise returns the stored value.  In the code the guard tests the
truthiness of the box object (always true), so `getAppState` never raises: on an
unset slot it returns the undefined content instead of failing. -/
theorem getAppState_never_raises (α : Type) (box : ShallowBox α) :
    getAppState box = Except.ok box.value :=
  rfl

/-- C3: the claim states `unescapeJsonPath (escapeJsonPath s) = s` for every
segment `s`.  The code escapes `/` to `~0` but unescapes `~0` to a backslash,
so the segment "/" round-trips to a single backslash, and re-splitting a joined
path does not reproduce the original segments. -/
theorem escape_unescape_not_inverse :
    escapeJsonPath "/" = "~0" ∧
    unescapeJsonPath (escapeJsonPath "/") = "\\" ∧
    joinJsonPath ["/"] = "/~0" ∧
    splitJsonPath (joinJsonPath ["/"]) = Except.ok ["\\"] ∧
    ("\\" : String) ≠ "/" := by
  refine ⟨rfl, rfl, rfl, rfl, ?_⟩
  decide

/-! ### Helper lemmas for C7 -/

theorem foldl_push_eq_append (l acc : List IJsonPatch) :
    l.foldl (fun acc p => acc ++ [p]) acc = acc ++ l := by
  induction l generalizing acc with
  | nil => simp
  | cons p rest ih => simp [List.foldl, ih]

theorem recorderPatches_eq (emitted : List IJsonPatch) :
    recorderPatches emitted = emitted := by
  simpa [recorderPatches] using foldl_push_eq_append emitted []

theorem join_map_single (ps : List IJsonPatch) :
    List.flatten (ps.map nodeApplyPatchTrace) = ps.map TraceStep.patchApplied := by
  induction ps with
  | nil => rfl
  | cons p rest ih => simp [nodeApplyPatchTrace, ih]

/-! ### Theorems for C7, C8, C9, C10 -/

/-- C7: for a recorder returned by `recordPatches`, `replay(target)` re-applies
exactly the recorded patch sequence, in the original emission order, inside one
transaction: the trace is a single begin/end bracket enclosing one
patch-application event per recorded patch, in order. -/
theorem recordPatches_replay_single_txn (emitted : List IJsonPatch) :
    replayTrace emitted =
      TraceStep.txnBegin ::
        (emitted.map TraceStep.patchApplied ++ [TraceStep.txnEnd]) := by
  simp [replayTrace, applyPatchesTrace, runInActionTrace, recorderPatches_eq,
    join_map_single]

/-- C8: `detach(v)` returns the very same value `v`, and afterwards
`getParent v` is none and `getPath v` is the root path "". -/
theorem detach_same_value_rootless (M : Type) [DecidableEq M]
    (st : NodeStore M) (v : M) :
    (detach st v).2 = v ∧
    getParent (detach st v).1 v false = none ∧
    getPath (detach st v).1 v = "" := by
  refine ⟨rfl, ?_, ?_⟩ <;>
    cases h : st v <;>
      simp [detach, getParent, getPath, NodeData.detachNode, NodeData.parentOf,
        NodeData.pathOf, h]

/-- C8 witness: a concrete two-level store over natural-number model values. -/
theorem detach_same_value_rootless_witness :
    (detach (fun _ => NodeData.mk (some (NodeData.mk none "p" 1)) "c" 2) (5 : Nat)).2 = 5 ∧
    getParent
      (detach (fun _ => NodeData.mk (some (NodeData.mk none "p" 1)) "c" 2) (5 : Nat)).1
      5 false = none ∧
    getPath
      (detach (fun _ => NodeData.mk (some (NodeData.mk none "p" 1)) "c" 2) (5 : Nat)).1
      5 = "" :=
  detach_same_value_rootless Nat (fun _ => NodeData.mk (some (NodeData.mk none "p" 1)) "c" 2) 5

/-- C9: for every target and strict flag, `hasParent` returns true if and only
if `getParent` returns a non-null value. -/
theorem hasParent_iff_getParent (M : Type) (st : NodeStore M) (target : M)
    (strict : Bool) :
    hasParent st target strict = true ↔ getParent st target strict ≠ none := by
  simp [hasParent, Option.isSome_iff_ne_none]

/-- C10: the `strict` argument is accepted but has no effect: `getParent` (and
hence `hasParent`) produce the same result for `strict = true` and
`strict = false`. -/
theorem getParent_strict_irrelevant (M : Type) (st : NodeStore M) (target : M) :
    getParent st target true = getParent st target false ∧
    hasParent st target true = hasParent st target false :=
  ⟨rfl, rfl⟩

/-! ### Helper lemmas about substring containment -/

theorem containsSub_nil (t : List Char) : containsSub [] t = true := by
  cases t with
  | nil => rfl
  | cons c rest => simp [containsSub, List.isPrefixOf]

theorem containsSub_of_isPrefixOf (pat s : List Char) (h : pat.isPrefixOf s = true) :
    containsSub pat s = true := by
  cases s with
  | nil =>
      cases pat with
      | nil => rfl
      | cons p ps => simp [List.isPrefixOf] at h
  | cons c rest => simp [containsSub, h]

theorem isPrefixOf_append_ext (p s t : List Char) (h : p.isPrefixOf s = true) :
    p.isPrefixOf (s ++ t) = true := by
  rw [List.isPrefixOf_iff_prefix] at h ⊢
  exact h.trans (List.prefix_append s t)

theorem containsSub_append_right (pat s t : List Char) (h : containsSub pat t = true) :
    containsSub pat (s ++ t) = true := by
  induction s with
  | nil => simpa using h
  | cons c cs ih =>
      simp only [List.cons_append, containsSub, Bool.or_eq_true]
      exact Or.inr ih

theorem containsSub_append_left (pat s t : List Char) (h : containsSub pat s = true) :
    containsSub pat (s ++ t) = true := by
  induction s with
  | nil =>
      cases pat with
      | nil => simpa using containsSub_nil t
      | cons p ps => simp [containsSub] at h
  | cons c cs ih =>
      simp only [containsSub, Bool.or_eq_true] at h
      simp only [List.cons_append, containsSub, Bool.or_eq_true]
      cases h with
      | inl h1 =>
          exact Or.inl (by simpa using isPrefixOf_append_ext pat (c :: cs) t h1)
      | inr h2 => exact Or.inr (ih h2)

theorem strContains_append_left (pat a b : String) (h : strContains pat a = true) :
    strContains pat (a ++ b) = true := by
  have hd : (a ++ b).data = a.data ++ b.data := rfl
  simpa [strContains, hd] using containsSub_append_left pat.data a.data b.data h

theorem strContains_append_right (pat a b : String) (h : strContains pat b = true) :
    strContains pat (a ++ b) = true := by
  have hd : (a ++ b).data = a.data ++ b.data := rfl
  simpa [strContains, hd] using containsSub_append_right pat.data a.data b.data h

theorem strContains_self (s : String) : strContains s s = true := by
  apply containsSub_of_isPrefixOf
  rw [List.isPrefixOf_iff_prefix]

theorem mem_insertSorted (y x : String) (l : List String) (h : y = x ∨ y ∈ l) :
    y ∈ insertSorted x l := by
  induction l with
  | nil => simp [insertSorted]; tauto
  | cons z rest ih =>
      simp only [insertSorted]
      split
      · rcases h with h | h
        · simp [h]
        · simp [List.mem_cons] at h ⊢; tauto
      · rcases h with h | h
        · exact List.mem_cons_of_mem z (ih (Or.inl h))
        · rcases List.mem_cons.mp h with h | h
          · simp [h]
          · exact List.mem_cons_of_mem z (ih (Or.inr h))

theorem mem_sortStrings (n : String) (l : List String) (h : n ∈ l) :
    n ∈ sortStrings l := by
  induction l with
  | nil => cases h
  | cons x rest ih =>
      simp only [sortStrings]
      rcases List.mem_cons.mp h with h | h
      · exact mem_insertSorted n x (sortStrings rest) (Or.inl h)
      · exact mem_insertSorted n x (sortStrings rest) (Or.inr (ih h))

theorem strContains_joinBar (n : String) (l : List String) (h : n ∈ l) :
    strContains n (joinBar l) = true := by
  induction l with
  | nil => cases h
  | cons s rest ih =>
      rcases List.mem_cons.mp h with h | h
      · subst h
        cases rest with
        | nil => exact strContains_self n
        | cons r rs =>
            show strContains n ((n ++ " | ") ++ joinBar (r :: rs)) = true
            exact strContains_append_left n (n ++ " | ") _
              (strContains_append_left n n " | " (strContains_self n))
      · cases rest with
        | nil => cases h
        | cons r rs =>
            show strContains n ((s ++ " | ") ++ joinBar (r :: rs)) = true
            exact strContains_append_right n (s ++ " | ") _ (ih h)

/-! ### Helper lemmas for C4: instantiation succeeds on valid snapshots and its
snapshot is the default-filled input -/

theorem validateFields_jnil (flds : Fields) :
    validateFields flds JsonFields.jnil = true := by
  cases flds with
  | fnil => rfl
  | fcons fn ft rest => simp [validateFields, lookupJson, validateFields_jnil rest]

mutual

theorem instSome_ok (d : TypeDesc) (s : JsonValue)
    (hu : unionFree d = true) (hw : wfDesc d = true) (hv : validate d s = true) :
    ∃ lv, instantiate d (some s) = Except.ok lv ∧ snapshotOf lv = defaultFill d s := by
  cases d with
  | prim dflt =>
      simp only [validate] at hv
      exact ⟨LiveValue.lprim s, by simp [instantiate, hv],
        by simp [snapshotOf, defaultFill]⟩
  | shape nm flds =>
      simp only [unionFree] at hu
      simp only [wfDesc] at hw
      cases s with
      | obj sf =>
          simp only [validate, Bool.and_eq_true] at hv
          obtain ⟨hk, hvf⟩ := hv
          obtain ⟨lfs, h1, h2⟩ := instFields_ok flds sf hu hw hvf
          refine ⟨LiveValue.lobj nm lfs, ?_, ?_⟩
          · simp [instantiate, hk, h1, Except.map]
          · simp [snapshotOf, defaultFill, h2]
      | str a => simp [validate] at hv
      | num a => simp [validate] at hv
      | bool a => simp [validate] at hv
      | arr a => simp [validate] at hv
  | arrayOf t =>
      simp only [unionFree] at hu
      simp only [wfDesc] at hw
      cases s with
      | arr items =>
          simp only [validate] at hv
          obtain ⟨lis, h1, h2⟩ := instItems_ok t items hu hw hv
          refine ⟨LiveValue.larr lis, ?_, ?_⟩
          · simp [instantiate, h1, Except.map]
          · simp [snapshotOf, defaultFill, h2]
      | str a => simp [validate] at hv
      | num a => simp [validate] at hv
      | bool a => simp [validate] at hv
      | obj a => simp [validate] at hv
  | withDefault base dflt =>
      simp only [unionFree] at hu
      simp only [wfDesc, Bool.and_eq_true] at hw
      obtain ⟨hwv, hwb⟩ := hw
      simp only [validate] at hv
      obtain ⟨lv, h1, h2⟩ := instSome_ok base s hu hwb hv
      exact ⟨lv, by simp [instantiate, h1], by simp [defaultFill, h2]⟩
  | unionOf vars => simp [unionFree] at hu

theorem instFields_ok (flds : Fields) (sf : JsonFields)
    (hu : unionFreeFields flds = true) (hw : wfFields flds = true)
    (hv : validateFields flds sf = true) :
    ∃ lfs, instantiateFields flds sf = Except.ok lfs ∧
      snapshotFields lfs = fillFields flds sf := by
  cases flds with
  | fnil => exact ⟨LiveFields.lfnil, rfl, rfl⟩
  | fcons fn ft rest =>
      simp only [unionFreeFields, Bool.and_eq_true] at hu
      obtain ⟨hu1, hu2⟩ := hu
      simp only [wfFields, Bool.and_eq_true] at hw
      obtain ⟨hw1, hw2⟩ := hw
      simp only [validateFields, Bool.and_eq_true] at hv
      obtain ⟨hv1, hv2⟩ := hv
      obtain ⟨lrest, h3, h4⟩ := instFields_ok rest sf hu2 hw2 hv2
      cases hl : lookupJson sf fn with
      | some v =>
          rw [hl] at hv1
          obtain ⟨lv, h1, h2⟩ := instSome_ok ft v hu1 hw1 hv1
          refine ⟨LiveFields.lfcons fn lv lrest, ?_, ?_⟩
          · simp [instantiateFields, hl, h1, h3]
          · simp [snapshotFields, fillFields, hl, h2, h4]
      | none =>
          obtain ⟨lv, h1, h2⟩ := instNone_ok ft hu1 hw1
          refine ⟨LiveFields.lfcons fn lv lrest, ?_, ?_⟩
          · simp [instantiateFields, hl, h1, h3]
          · simp [snapshotFields, fillFields, hl, h2, h4]

theorem instItems_ok (t : TypeDesc) (items : JsonItems)
    (hu : unionFree t = true) (hw : wfDesc t = true)
    (hv : allItems (fun x => validate t x) items = true) :
    ∃ lis, mapItemsExcept (fun x => instantiate t (some x)) items = Except.ok lis ∧
      snapshotItems lis = mapItems (fun x => defaultFill t x) items := by
  cases items with
  | inil => exact ⟨LiveItems.linil, rfl, rfl⟩
  | icons v rest =>
      simp only [allItems, Bool.and_eq_true] at hv
      obtain ⟨hv1, hv2⟩ := hv
      obtain ⟨lv, h1, h2⟩ := instSome_ok t v hu hw hv1
      obtain ⟨lrest, h3, h4⟩ := instItems_ok t rest hu hw hv2
      refine ⟨LiveItems.licons lv lrest, ?_, ?_⟩
      · simp [mapItemsExcept, h1, h3]
      · simp [snapshotItems, mapItems, h2, h4]

theorem instNone_ok (d : TypeDesc) (hu : unionFree d = true) (hw : wfDesc d = true) :
    ∃ lv, instantiate d none = Except.ok lv ∧ snapshotOf lv = fillDefault d := by
  cases d with
  | prim dflt => exact ⟨LiveValue.lprim dflt, rfl, rfl⟩
  | shape nm flds =>
      simp only [unionFree] at hu
      simp only [wfDesc] at hw
      obtain ⟨lfs, h1, h2⟩ :=
        instFields_ok flds JsonFields.jnil hu hw (validateFields_jnil flds)
      refine ⟨LiveValue.lobj nm lfs, ?_, ?_⟩
      · simp [instantiate, h1, Except.map]
      · simp [snapshotOf, fillDefault, h2]
  | arrayOf t => exact ⟨LiveValue.larr LiveItems.linil, rfl, rfl⟩
  | withDefault base dflt =>
      simp only [unionFree] at hu
      simp only [wfDesc, Bool.and_eq_true] at hw
      obtain ⟨hwv, hwb⟩ := hw
      obtain ⟨lv, h1, h2⟩ := instSome_ok base dflt hu hwb hwv
      exact ⟨lv, by simp [instantiate, h1], by simp [fillDefault, h2]⟩
  | unionOf vars => simp [unionFree] at hu

end

/-! ### Theorems for C4, C5, C6 -/

/-- C4: for every valid snapshot of a union-free, well-formed descriptor (in
particular every ObjectShape factory), instantiation succeeds and the snapshot
of the produced instance is exactly the input after default filling: declared
defaults fill only the keys absent from the input, and keys present keep their
provided values. -/
theorem factory_snapshot_roundtrip (d : TypeDesc) (s : JsonValue)
    (hu : unionFree d = true) (hw : wfDesc d = true) (hv : validate d s = true) :
    ∃ lv, instantiate d (some s) = Except.ok lv ∧ snapshotOf lv = defaultFill d s :=
  instSome_ok d s hu hw hv

/-- C4 witness: the factory and snapshot of the roundtrip test
(src/unnamed/part_000 lines 100-113). -/
theorem factory_snapshot_roundtrip_witness :
    (unionFree c4Desc = true ∧ wfDesc c4Desc = true ∧ validate c4Desc c4Snap = true) ∧
    ∃ lv, instantiate c4Desc (some c4Snap) = Except.ok lv ∧
      snapshotOf lv = defaultFill c4Desc c4Snap :=
  ⟨⟨by decide, by decide, by decide⟩,
    factory_snapshot_roundtrip c4Desc c4Snap (by decide) (by decide) (by decide)⟩

/-- C5 counterexample: for the union `types.union(Square, Box)` of the test and
the snapshot accepted by both variants, instantiation produces exactly the
message asserted by the repository test (src/unnamed/part_000 line 33).  That
message does not contain the fragment "Ambiguous snapshot" stated by the claim
(the source spells it "Ambiguos"), and it does not enumerate the variant names
in declaration order (declaration order is Square, Box but the message says
"Box | Square"). -/
theorem union_message_counterexample :
    instantiate planeUnion (some squareSnap) = Except.error planeAmbiguousMsg ∧
    variantNameList planeVariants = ["Square", "Box"] ∧
    strContains "Ambiguous snapshot" planeAmbiguousMsg = false ∧
    strContains (joinBar (variantNameList planeVariants)) planeAmbiguousMsg = false := by
  refine ⟨rfl, rfl, ?_, ?_⟩ <;> decide

/-- C5 (amended): when a dispatcher-less union is instantiated from a snapshot
accepted by zero or more than one variant, instantiation fails with the
"Ambiguos snapshot ... Please provide a dispatch" error, whose message names
every variant of the union separated by " | " (in the source's enumeration
order, which is not declaration order). -/
theorem union_ambiguity_raises (vars : Variants) (s : JsonValue)
    (h : countMatching vars s ≠ 1) :
    instantiate (TypeDesc.unionOf vars) (some s) =
      Except.error (ambiguousMessage vars s) ∧
    strContains "Ambiguos snapshot" (ambiguousMessage vars s) = true ∧
    strContains "Please provide a dispatch" (ambiguousMessage vars s) = true ∧
    ∀ n, n ∈ variantNameList vars →
      strContains n (ambiguousMessage vars s) = true := by
  refine ⟨?_, ?_, ?_, ?_⟩
  · simp only [instantiate]
    rw [if_neg h]
  · simp only [ambiguousMessage]
    apply strContains_append_left
    apply strContains_append_left
    apply strContains_append_left
    apply strContains_append_left
    decide
  · simp only [ambiguousMessage]
    apply strContains_append_right
    decide
  · intro n hn
    simp only [ambiguousMessage]
    apply strContains_append_left
    apply strContains_append_right
    exact strContains_joinBar n _ (mem_sortStrings n _ hn)

/-- C5 witness: the recorded union and snapshot of the test
(src/unnamed/part_000 lines 27-34): both variants accept the snapshot, so the
match count is 2. -/
theorem union_ambiguity_raises_witness :
    countMatching planeVariants squareSnap ≠ 1 ∧
    (instantiate (TypeDesc.unionOf planeVariants) (some squareSnap) =
        Except.error (ambiguousMessage planeVariants squareSnap) ∧
      strContains "Ambiguos snapshot" (ambiguousMessage planeVariants squareSnap) = true ∧
      strContains "Please provide a dispatch"
        (ambiguousMessage planeVariants squareSnap) = true ∧
      ∀ n, n ∈ variantNameList planeVariants →
        strContains n (ambiguousMessage planeVariants squareSnap) = true) :=
  ⟨by decide, union_ambiguity_raises planeVariants squareSnap (by decide)⟩

/-- C6 counterexample: for the invalid default of the repository test,
`types.withDefault` fails at definition time with exactly the message the test
asserts (src/unnamed/part_000 line 130); that message is not of the exact form
stated by the claim (`Default value ... Expected "..."`), because it carries
the "[mobx-state-tree] " prefix in front of that form. -/
theorem withDefault_message_counterexample :
    typesWithDefault c6Base c6Bad = Except.error c6Msg ∧
    c6Msg ≠ c6ClaimForm ∧
    c6Msg = "[mobx-state-tree] " ++ c6ClaimForm := by
  refine ⟨rfl, ?_, rfl⟩
  decide

/-- C6 (amended): `types.withDefault(descriptor, defaultSnapshot)` validates
the default at definition time and, when it is invalid, fails immediately with
"[mobx-state-tree] " followed by the exact form
`Default value <json> is not assignable to type <name>. Expected "<shape-signature>"`. -/
theorem withDefault_invalid_raises (base : TypeDesc) (dflt : JsonValue)
    (h : validate base dflt = false) :
    typesWithDefault base dflt =
      Except.error ("[mobx-state-tree] " ++ "Default value " ++ render dflt ++
        " is not assignable to type " ++ typeName base ++ ". Expected \"" ++
        sigOf base ++ "\"") := by
  simp [typesWithDefault, h]

/-- C6 witness: the invalid default of the repository test
(src/unnamed/part_000 lines 116-131). -/
theorem withDefault_invalid_raises_witness :
    validate c6Base c6Bad = false ∧
    typesWithDefault c6Base c6Bad =
      Except.error ("[mobx-state-tree] " ++ "Default value " ++ render c6Bad ++
        " is not assignable to type " ++ typeName c6Base ++ ". Expected \"" ++
        sigOf c6Base ++ "\"") :=
  ⟨by decide, withDefault_invalid_raises c6Base c6Bad (by decide)⟩

end MST
